import Mathlib

/-!
Verification of the `tailgaters` live CSV heatmap plotter (`plot.py`).

The development embeds the program shallowly:

* paths and `os.path.abspath` (used by the watchdog handler's path filter);
* the sample data model and the CSV loader interface;
* `interpolate_and_plot`, the load → interpolate → render pass, with
  `np.linspace`, column min/max, and the scattered-data linear
  interpolation (`scipy.interpolate.griddata`, modelled from the spec);
* the main loop as a small-step transition system over the shared
  `file_changed` flag, the loop program counter and the display surface —
  once as the flag-test/clear/refresh body alone, and once as the full
  loop including the line-112 window-liveness check and loop exit.
-/

namespace Tailgaters

/-! ## Paths and `os.path.abspath` -/

/-- A POSIX-style path, as a list of components plus an absolute-or-relative
marker.  `os.path.abspath` joins with the working directory and normalises. -/
structure PyPath where
  isAbs : Bool
  comps : List String
deriving DecidableEq

/-- One step of `os.path.normpath`: drop empty and `.` components and resolve
`..` against the (reversed) stack of components already emitted. -/
def normStep (isAbs : Bool) (acc : List String) (c : String) : List String :=
  if c = "" ∨ c = "." then acc
  else if c = ".." then
    match acc with
    | [] => if isAbs then [] else [".."]
    | top :: rest => if top = ".." then c :: acc else rest
  else c :: acc

/-- Embeds `os.path.normpath`. -/
def normpath (p : PyPath) : PyPath :=
  ⟨p.isAbs, (p.comps.foldl (normStep p.isAbs) []).reverse⟩

/-- Embeds `os.path.join cwd p` (the two-argument case used by `abspath`). -/
def joinPath (cwd p : PyPath) : PyPath :=
  if p.isAbs then p else ⟨cwd.isAbs, cwd.comps ++ p.comps⟩

/-- Embeds `os.path.abspath`: join with the working directory, normalise. -/
def os_path_abspath (cwd p : PyPath) : PyPath :=
  normpath (joinPath cwd p)

/-! ## Samples and the CSV loader -/

/-- One CSV row, `plot.py` line 22: columns `time, power, azimuth, elevation`.
Numeric values are modelled by rationals. -/
structure Sample where
  time : ℚ
  power : ℚ
  azimuth : ℚ
  elevation : ℚ
deriving DecidableEq

/-- A raw CSV row as handed to the parser: each cell either parsed to a
number or not numeric (`none`). -/
abbrev RawRow := List (Option ℚ)

/-- Modelled from the spec: one row of the external CSV parser
(`pd.read_csv`, not part of this repository).  A row parses exactly when it
has four numeric cells in the order time, power, azimuth, elevation. -/
def parseRow (r : RawRow) : Except String Sample :=
  match r with
  | [some t, some p, some a, some e] => .ok ⟨t, p, a, e⟩
  | _ => .error "malformed row"

/-- Modelled from the spec: the external CSV parser `pd.read_csv`
(`plot.py` line 22) — "given a file path, produce rows of
(time, power, azimuth, elevation) or signal a read failure"; "any row not
matching this shape causes the whole load to be treated as failed". -/
def read_csv : List RawRow → Except String (List Sample)
  | [] => .ok []
  | r :: rs => do
    let s ← parseRow r
    let ss ← read_csv rs
    pure (s :: ss)

/-! ## numpy column reductions and `linspace` -/

/-- Embeds `ndarray.min()` on a column (used on a nonempty column). -/
def npMin : List ℚ → ℚ
  | [] => 0
  | x :: xs => xs.foldl min x

/-- Embeds `ndarray.max()` on a column (used on a nonempty column). -/
def npMax : List ℚ → ℚ
  | [] => 0
  | x :: xs => xs.foldl max x

/-- Embeds `np.linspace a b n`: `n` evenly spaced points from `a` to `b`
inclusive, exact over ℚ. -/
def np_linspace (a b : ℚ) (n : ℕ) : List ℚ :=
  (List.range n).map (fun (i : ℕ) => a + (i : ℚ) * ((b - a) / ((n : ℚ) - 1)))

/-! ## Scattered-data linear interpolation -/

/-- Barycentric coordinates of `p` in the triangle `a b c`, when the
triangle is non-degenerate and `p` lies inside it (all weights
nonnegative); `none` otherwise. -/
def baryWeights (a b c p : ℚ × ℚ) : Option (ℚ × ℚ × ℚ) :=
  let det := (b.1 - a.1) * (c.2 - a.2) - (c.1 - a.1) * (b.2 - a.2)
  if det = 0 then none
  else
    let wb := ((p.1 - a.1) * (c.2 - a.2) - (c.1 - a.1) * (p.2 - a.2)) / det
    let wc := ((b.1 - a.1) * (p.2 - a.2) - (p.1 - a.1) * (b.2 - a.2)) / det
    let wa := 1 - wb - wc
    if 0 ≤ wa ∧ 0 ≤ wb ∧ 0 ≤ wc then some (wa, wb, wc) else none

/-- Modelled from the spec: `scipy.interpolate.griddata` with
`method="linear"` (`plot.py` lines 46–51; the routine itself is an external
library): "linear barycentric interpolation over the triangulation of the
irregular sample points"; "grid nodes outside the convex hull of the samples
receive a no-value marker".  The value at a node is the barycentric
combination over a containing sample triangle, `none` when no sample
triangle contains the node. -/
def griddata (pts : List (ℚ × ℚ)) (vals : List ℚ) (node : ℚ × ℚ) : Option ℚ :=
  let ptvals := pts.zip vals
  ptvals.findSome? fun a =>
    ptvals.findSome? fun b =>
      ptvals.findSome? fun c =>
        (baryWeights a.1 b.1 c.1 node).map fun w =>
          w.1 * a.2 + w.2.1 * b.2 + w.2.2 * c.2

/-! ## The refresh pass `interpolate_and_plot` -/

/-- Everything `interpolate_and_plot` hands to the rendering surface on a
successful pass (`plot.py` lines 37–72). -/
structure Frame where
  az_min : ℚ
  az_max : ℚ
  el_min : ℚ
  el_max : ℚ
  az_grid : List ℚ
  el_grid : List ℚ
  power_grid : List (List (Option ℚ))
  scatter : List (ℚ × ℚ)
  extent : List ℚ
  xlabel : String
  ylabel : String
  title : String
  colorbar_label : String
deriving DecidableEq

/-- Outcome of one refresh pass. -/
inductive Outcome where
  | loadError (msg : String)
  | insufficientData
  | rendered (fr : Frame)
deriving DecidableEq

/-- Grid resolution, `plot.py` line 40. -/
def num_points : ℕ := 100

/-- The else-branch of `interpolate_and_plot` (`plot.py` lines 32–72):
column extraction, bounds, grid, interpolation and the plot calls. -/
def renderFrame (df : List Sample) : Frame :=
  let azimuths := df.map Sample.azimuth
  let elevations := df.map Sample.elevation
  let power := df.map Sample.power
  let az_min := npMin azimuths
  let az_max := npMax azimuths
  let el_min := npMin elevations
  let el_max := npMax elevations
  let az_grid := np_linspace az_min az_max num_points
  let el_grid := np_linspace el_min el_max num_points
  { az_min := az_min
    az_max := az_max
    el_min := el_min
    el_max := el_max
    az_grid := az_grid
    el_grid := el_grid
    power_grid :=
      el_grid.map fun el => az_grid.map fun az =>
        griddata (azimuths.zip elevations) power (az, el)
    scatter := azimuths.zip elevations
    extent := [az_min, az_max, el_min, el_max]
    xlabel := "Azimuth"
    ylabel := "Elevation"
    title := "Interpolated Power Heatmap"
    colorbar_label := "Power" }

/-- Embeds `interpolate_and_plot` (`plot.py` lines 15–72).  The `try/except` around
`pd.read_csv` is the `Except` match; the arity guard is line 28. -/
def interpolate_and_plot (load : Except String (List Sample)) : Outcome :=
  match load with
  | .error e => .loadError e
  | .ok df =>
    if df.length < 2 then .insufficientData
    else .rendered (renderFrame df)

/-- Effect of one refresh pass on the display surface: `plt.clf()` and the
redraw happen only after both early returns (`plot.py` lines 25, 30, 54);
a failed pass leaves the previous frame untouched. -/
def refreshPass (display : Option Frame) (load : Except String (List Sample)) :
    Option Frame :=
  match interpolate_and_plot load with
  | .rendered fr => some fr
  | _ => display

/-! ## The watchdog handler and the main loop -/

/-- Embeds `CSVFileChangeHandler` (`plot.py` lines 74–89): stores the watched
target in absolute form. -/
structure CSVFileChangeHandler where
  target_path : PyPath
deriving DecidableEq

/-- Embeds `CSVFileChangeHandler.__init__` (`plot.py` line 81). -/
def CSVFileChangeHandler.init (cwd target : PyPath) : CSVFileChangeHandler :=
  ⟨os_path_abspath cwd target⟩

/-- Embeds `on_modified` (`plot.py` lines 83–89): the new value of the
`file_changed` flag after a modification event for `src`. -/
def on_modified (cwd : PyPath) (h : CSVFileChangeHandler)
    (file_changed : Bool) (src : PyPath) : Bool :=
  if os_path_abspath cwd src = h.target_path then true else file_changed

/-- Program counter of the main loop body (`plot.py` lines 116–118):
about to test the flag; about to clear it; refresh in progress. -/
inductive MainPC where
  | pcCheck
  | pcClear
  | pcRefresh
deriving DecidableEq

/-- The state shared between the notifier thread and the main loop:
the `file_changed` flag, the loop position, the display surface, and a
counter of completed reload+interpolate+render passes. -/
structure SysState where
  file_changed : Bool
  pc : MainPC
  display : Option Frame
  refreshes : ℕ
deriving DecidableEq

/-- An interleaving event: a watchdog modification callback for some path
(on the observer thread), or one atomic step of the main thread.  A main
step at `pcRefresh` runs `interpolate_and_plot` on the file contents read
at that moment, passed as `load`. -/
inductive Ev where
  | modified (src : PyPath)
  | mainStep (load : Except String (List Sample))

/-- Small-step semantics of the notifier callback and the loop's
flag-test/clear/refresh body (`plot.py` lines 83–89 and 116–118).  The
line-112 window-liveness check is deliberately not part of this reduced
model: every `mainStep` here is an iteration the program actually executes
with the window open.  The full loop including the liveness check and the
loop exit is `stepFull` below. -/
def step (cwd target : PyPath) (s : SysState) (e : Ev) : SysState :=
  match e with
  | .modified src =>
    { s with file_changed :=
        on_modified cwd (CSVFileChangeHandler.init cwd target) s.file_changed src }
  | .mainStep load =>
    match s.pc with
    | .pcCheck => if s.file_changed then { s with pc := .pcClear } else s
    | .pcClear => { s with file_changed := false, pc := .pcRefresh }
    | .pcRefresh =>
      { s with pc := .pcCheck
               display := refreshPass s.display load
               refreshes := s.refreshes + 1 }

/-- Run a sequence of interleaved events. -/
def runEvs (cwd target : PyPath) (s : SysState) (evs : List Ev) : SysState :=
  evs.foldl (step cwd target) s

/-- Startup (`plot.py` lines 91–110): flag initialised false, one
unconditional synchronous initial refresh against the initial file
contents, then the loop begins at the flag check. -/
def mainStartup (load : Except String (List Sample)) : SysState :=
  { file_changed := false
    pc := .pcCheck
    display := refreshPass none load
    refreshes := 0 }

/-! ## The full main loop, with the window-liveness check -/

/-- Modelled from the spec: the Render Sink's liveness query —
`plt.fignum_exists(1)` at `plot.py` line 112.  Figure 1 is created only by
a successful render pass (`plt.clf()`/`plt.imshow` at lines 54–62;
`plt.ion()` creates no figure and failed passes return before line 54), so
the display surface exists exactly when some pass has rendered a frame. -/
def fignum_exists (display : Option Frame) : Bool :=
  display.isSome

/-- Program counter of the full loop body (`plot.py` lines 110–120): the
line-112 liveness check precedes the flag test, clear and refresh. -/
inductive FullPC where
  | fLive
  | fCheck
  | fClear
  | fRefresh
deriving DecidableEq

/-- State of the full main loop: as `SysState`, plus `running`, which
becomes false — permanently — once line 112's `break` has executed (the
observer is then stopped and joined and the process exits). -/
structure FullState where
  file_changed : Bool
  pc : FullPC
  running : Bool
  display : Option Frame
  refreshes : ℕ
deriving DecidableEq

/-- Small-step semantics of the notifier callback and the full main loop,
`plot.py` lines 83–89 and 110–120, including the line-112 liveness
check: each iteration first tests whether figure 1 exists and breaks the
loop when it does not; only then are the flag test, clear and refresh of
lines 116–118 reached.  After the break no main-loop step does anything. -/
def stepFull (cwd target : PyPath) (s : FullState) (e : Ev) : FullState :=
  match e with
  | .modified src =>
    { s with file_changed :=
        on_modified cwd (CSVFileChangeHandler.init cwd target) s.file_changed src }
  | .mainStep load =>
    if s.running then
      match s.pc with
      | .fLive =>
        if fignum_exists s.display then { s with pc := .fCheck }
        else { s with running := false }
      | .fCheck =>
        if s.file_changed then { s with pc := .fClear }
        else { s with pc := .fLive }
      | .fClear => { s with file_changed := false, pc := .fRefresh }
      | .fRefresh =>
        { s with pc := .fLive
                 display := refreshPass s.display load
                 refreshes := s.refreshes + 1 }
    else s

/-- Run a sequence of interleaved events through the full loop model. -/
def runEvsFull (cwd target : PyPath) (s : FullState) (evs : List Ev) :
    FullState :=
  evs.foldl (stepFull cwd target) s

/-- Startup for the full loop model (`plot.py` lines 91–110): flag
initialised false, one unconditional synchronous initial refresh against
the initial file contents, then the loop begins at the line-112 liveness
check. -/
def mainStartupFull (load : Except String (List Sample)) : FullState :=
  { file_changed := false
    pc := .fLive
    running := true
    display := refreshPass none load
    refreshes := 0 }

/-- The four-corner sample set of the spec's end-to-end scenario 1, used to
instantiate the theorems below on concrete data. -/
def demoSamples : List Sample :=
  [⟨0, 1, 0, 0⟩, ⟨1, 2, 10, 0⟩, ⟨2, 3, 0, 10⟩, ⟨3, 4, 10, 10⟩]

/-! ## Helper lemmas: folded minima and maxima -/

theorem foldl_min_le_init (l : List ℚ) (a : ℚ) : l.foldl min a ≤ a := by
  induction l generalizing a with
  | nil => exact le_refl a
  | cons x xs ih => exact le_trans (ih (min a x)) (min_le_left a x)

theorem foldl_min_le_mem (l : List ℚ) (a x : ℚ) (hx : x ∈ l) :
    l.foldl min a ≤ x := by
  induction l generalizing a with
  | nil => cases hx
  | cons y ys ih =>
    rcases List.mem_cons.mp hx with h | h
    · subst h
      exact le_trans (foldl_min_le_init ys (min a x)) (min_le_right a x)
    · exact ih (min a y) h

theorem foldl_min_mem_or (l : List ℚ) (a : ℚ) :
    l.foldl min a = a ∨ l.foldl min a ∈ l := by
  induction l generalizing a with
  | nil => exact Or.inl rfl
  | cons x xs ih =>
    rcases ih (min a x) with h | h
    · rcases min_choice a x with hm | hm
      · exact Or.inl (by rw [List.foldl_cons, h, hm])
      · exact Or.inr (by rw [List.foldl_cons, h, hm]; exact List.mem_cons_self x xs)
    · exact Or.inr (List.mem_cons_of_mem x h)

theorem le_foldl_max_init (l : List ℚ) (a : ℚ) : a ≤ l.foldl max a := by
  induction l generalizing a with
  | nil => exact le_refl a
  | cons x xs ih => exact le_trans (le_max_left a x) (ih (max a x))

theorem mem_le_foldl_max (l : List ℚ) (a x : ℚ) (hx : x ∈ l) :
    x ≤ l.foldl max a := by
  induction l generalizing a with
  | nil => cases hx
  | cons y ys ih =>
    rcases List.mem_cons.mp hx with h | h
    · subst h
      exact le_trans (le_max_right a x) (le_foldl_max_init ys (max a x))
    · exact ih (max a y) h

theorem foldl_max_mem_or (l : List ℚ) (a : ℚ) :
    l.foldl max a = a ∨ l.foldl max a ∈ l := by
  induction l generalizing a with
  | nil => exact Or.inl rfl
  | cons x xs ih =>
    rcases ih (max a x) with h | h
    · rcases max_choice a x with hm | hm
      · exact Or.inl (by rw [List.foldl_cons, h, hm])
      · exact Or.inr (by rw [List.foldl_cons, h, hm]; exact List.mem_cons_self x xs)
    · exact Or.inr (List.mem_cons_of_mem x h)

theorem npMin_le (l : List ℚ) (x : ℚ) (hx : x ∈ l) : npMin l ≤ x := by
  cases l with
  | nil => cases hx
  | cons y ys =>
    rcases List.mem_cons.mp hx with h | h
    · subst h; exact foldl_min_le_init ys x
    · exact foldl_min_le_mem ys y x h

theorem npMin_mem (l : List ℚ) (h : l ≠ []) : npMin l ∈ l := by
  cases l with
  | nil => exact absurd rfl h
  | cons y ys =>
    rcases foldl_min_mem_or ys y with h' | h'
    · rw [npMin, h']; exact List.mem_cons_self y ys
    · exact List.mem_cons_of_mem y h'

theorem le_npMax (l : List ℚ) (x : ℚ) (hx : x ∈ l) : x ≤ npMax l := by
  cases l with
  | nil => cases hx
  | cons y ys =>
    rcases List.mem_cons.mp hx with h | h
    · subst h; exact le_foldl_max_init ys x
    · exact mem_le_foldl_max ys y x h

theorem npMax_mem (l : List ℚ) (h : l ≠ []) : npMax l ∈ l := by
  cases l with
  | nil => exact absurd rfl h
  | cons y ys =>
    rcases foldl_max_mem_or ys y with h' | h'
    · rw [npMax, h']; exact List.mem_cons_self y ys
    · exact List.mem_cons_of_mem y h'

/-! ## Helper lemmas: `np_linspace` -/

theorem np_linspace_length (a b : ℚ) (n : ℕ) :
    (np_linspace a b n).length = n := by
  unfold np_linspace
  rw [List.length_map, List.length_range]

theorem np_linspace_first (a b : ℚ) (n : ℕ) (h : 0 < n) :
    (np_linspace a b n)[0]? = some a := by
  unfold np_linspace
  rw [List.getElem?_map, List.getElem?_range h]
  simp

theorem np_linspace_last (a b : ℚ) (n : ℕ) (h : 2 ≤ n) :
    (np_linspace a b n)[n - 1]? = some b := by
  have hlt : n - 1 < n := by omega
  unfold np_linspace
  rw [List.getElem?_map, List.getElem?_range hlt]
  have hne : (n : ℚ) - 1 ≠ 0 := by
    have h2 : (2 : ℚ) ≤ (n : ℚ) := by exact_mod_cast h
    linarith
  have h1 : (1 : ℕ) ≤ n := by omega
  have hcast : ((n - 1 : ℕ) : ℚ) = (n : ℚ) - 1 := by
    rw [Nat.cast_sub h1, Nat.cast_one]
  simp only [Option.map_some']
  rw [hcast]
  congr 1
  field_simp

theorem np_linspace_const (a : ℚ) (n : ℕ) (x : ℚ)
    (hx : x ∈ np_linspace a a n) : x = a := by
  simp only [np_linspace, List.mem_map, List.mem_range] at hx
  obtain ⟨i, _, hi⟩ := hx
  rw [← hi]
  simp

/-! ## Helper lemmas: the CSV parser -/

theorem parseRow_error_of_bad (r : RawRow)
    (h : r.length ≠ 4 ∨ (none : Option ℚ) ∈ r) :
    parseRow r = .error "malformed row" := by
  rcases r with _ | ⟨c1, _ | ⟨c2, _ | ⟨c3, _ | ⟨c4, rest⟩⟩⟩⟩
  · rfl
  · cases c1 <;> rfl
  · cases c1 <;> cases c2 <;> rfl
  · cases c1 <;> cases c2 <;> cases c3 <;> rfl
  · cases rest with
    | cons c5 rest' => cases c1 <;> cases c2 <;> cases c3 <;> cases c4 <;> rfl
    | nil =>
      cases c1 with
      | none => rfl
      | some v1 =>
        cases c2 with
        | none => rfl
        | some v2 =>
          cases c3 with
          | none => rfl
          | some v3 =>
            cases c4 with
            | none => rfl
            | some v4 => simp at h

theorem read_csv_error_of_bad_row (rows : List RawRow)
    (h : ∃ r ∈ rows, r.length ≠ 4 ∨ (none : Option ℚ) ∈ r) :
    ∃ msg, read_csv rows = .error msg := by
  induction rows with
  | nil => obtain ⟨r, hr, _⟩ := h; cases hr
  | cons r rs ih =>
    obtain ⟨r', hr', hbad⟩ := h
    rcases List.mem_cons.mp hr' with h1 | h1
    · subst h1
      refine ⟨"malformed row", ?_⟩
      rw [read_csv]
      rw [parseRow_error_of_bad r' hbad]
      rfl
    · cases hpr : parseRow r with
      | error e => exact ⟨e, by rw [read_csv, hpr]; rfl⟩
      | ok s =>
        obtain ⟨msg, hmsg⟩ := ih ⟨r', h1, hbad⟩
        refine ⟨msg, ?_⟩
        rw [read_csv, hpr, hmsg]
        rfl

/-! ## Helper lemmas: `findSome?` and the interpolation kernel -/

theorem exists_of_findSome_eq_some {α β : Type} (l : List α) (f : α → Option β)
    (b : β) (h : l.findSome? f = some b) : ∃ a ∈ l, f a = some b := by
  induction l with
  | nil => simp at h
  | cons x xs ih =>
    rw [List.findSome?_cons] at h
    cases hx : f x with
    | some v =>
      rw [hx] at h
      exact ⟨x, List.mem_cons_self x xs, hx.trans h⟩
    | none =>
      rw [hx] at h
      obtain ⟨a, ha, hfa⟩ := ih h
      exact ⟨a, List.mem_cons_of_mem x ha, hfa⟩

theorem baryWeights_spec (a b c p : ℚ × ℚ) (w : ℚ × ℚ × ℚ)
    (h : baryWeights a b c p = some w) :
    0 ≤ w.1 ∧ 0 ≤ w.2.1 ∧ 0 ≤ w.2.2 ∧ w.1 + w.2.1 + w.2.2 = 1 ∧
      p = w.1 • a + w.2.1 • b + w.2.2 • c := by
  simp only [baryWeights] at h
  split_ifs at h with hd hpos
  have hw := (Option.some.inj h).symm
  subst hw
  refine ⟨hpos.1, hpos.2.1, hpos.2.2, by ring, ?_⟩
  have hx : p.1 = (1 - ((p.1 - a.1) * (c.2 - a.2) - (c.1 - a.1) * (p.2 - a.2)) /
        ((b.1 - a.1) * (c.2 - a.2) - (c.1 - a.1) * (b.2 - a.2)) -
        ((b.1 - a.1) * (p.2 - a.2) - (p.1 - a.1) * (b.2 - a.2)) /
        ((b.1 - a.1) * (c.2 - a.2) - (c.1 - a.1) * (b.2 - a.2))) * a.1 +
      ((p.1 - a.1) * (c.2 - a.2) - (c.1 - a.1) * (p.2 - a.2)) /
        ((b.1 - a.1) * (c.2 - a.2) - (c.1 - a.1) * (b.2 - a.2)) * b.1 +
      ((b.1 - a.1) * (p.2 - a.2) - (p.1 - a.1) * (b.2 - a.2)) /
        ((b.1 - a.1) * (c.2 - a.2) - (c.1 - a.1) * (b.2 - a.2)) * c.1 := by
    field_simp
    ring
  have hy : p.2 = (1 - ((p.1 - a.1) * (c.2 - a.2) - (c.1 - a.1) * (p.2 - a.2)) /
        ((b.1 - a.1) * (c.2 - a.2) - (c.1 - a.1) * (b.2 - a.2)) -
        ((b.1 - a.1) * (p.2 - a.2) - (p.1 - a.1) * (b.2 - a.2)) /
        ((b.1 - a.1) * (c.2 - a.2) - (c.1 - a.1) * (b.2 - a.2))) * a.2 +
      ((p.1 - a.1) * (c.2 - a.2) - (c.1 - a.1) * (p.2 - a.2)) /
        ((b.1 - a.1) * (c.2 - a.2) - (c.1 - a.1) * (b.2 - a.2)) * b.2 +
      ((b.1 - a.1) * (p.2 - a.2) - (p.1 - a.1) * (b.2 - a.2)) /
        ((b.1 - a.1) * (c.2 - a.2) - (c.1 - a.1) * (b.2 - a.2)) * c.2 := by
    field_simp
    ring
  apply Prod.ext
  · simpa [smul_eq_mul] using hx
  · simpa [smul_eq_mul] using hy

theorem combo3_mem_convexHull {s : Set (ℚ × ℚ)} {a b c : ℚ × ℚ}
    (ha : a ∈ s) (hb : b ∈ s) (hc : c ∈ s) {wa wb wc : ℚ}
    (h0a : 0 ≤ wa) (h0b : 0 ≤ wb) (h0c : 0 ≤ wc) (hsum : wa + wb + wc = 1) :
    wa • a + wb • b + wc • c ∈ convexHull ℚ s := by
  have hconv : Convex ℚ (convexHull ℚ s) := convex_convexHull ℚ s
  have ha' : a ∈ convexHull ℚ s := subset_convexHull ℚ s ha
  have hb' : b ∈ convexHull ℚ s := subset_convexHull ℚ s hb
  have hc' : c ∈ convexHull ℚ s := subset_convexHull ℚ s hc
  by_cases ht : wb + wc = 0
  · have hwb0 : wb = 0 := by linarith
    have hwc0 : wc = 0 := by linarith
    have hwa1 : wa = 1 := by linarith
    rw [hwa1, hwb0, hwc0]
    simpa using ha'
  · have htpos : 0 < wb + wc := lt_of_le_of_ne (by linarith) (Ne.symm ht)
    have hq : (wb / (wb + wc)) • b + (wc / (wb + wc)) • c ∈ convexHull ℚ s := by
      refine hconv hb' hc' (div_nonneg h0b (le_of_lt htpos))
        (div_nonneg h0c (le_of_lt htpos)) ?_
      field_simp
    have hfinal := hconv ha' hq h0a (le_of_lt htpos) (by linarith)
    have e1 : (wb + wc) * (wb / (wb + wc)) = wb := by
      field_simp
    have e2 : (wb + wc) * (wc / (wb + wc)) = wc := by
      field_simp
    have heq : wa • a + (wb + wc) • ((wb / (wb + wc)) • b + (wc / (wb + wc)) • c)
        = wa • a + wb • b + wc • c := by
      rw [smul_add, smul_smul, smul_smul, e1, e2, add_assoc]
    rw [heq] at hfinal
    exact hfinal

/-! ## Helper lemmas: the refresh pass -/

theorem interpolate_and_plot_ok (df : List Sample) (h : ¬ df.length < 2) :
    interpolate_and_plot (.ok df) = .rendered (renderFrame df) := by
  simp [interpolate_and_plot, h]

theorem interpolate_and_plot_short (df : List Sample) (h : df.length < 2) :
    interpolate_and_plot (.ok df) = .insufficientData := by
  simp [interpolate_and_plot, h]

theorem refreshPass_ok (display : Option Frame) (df : List Sample)
    (h : ¬ df.length < 2) :
    refreshPass display (.ok df) = some (renderFrame df) := by
  rw [refreshPass, interpolate_and_plot_ok df h]

theorem refreshPass_short (display : Option Frame) (df : List Sample)
    (h : df.length < 2) :
    refreshPass display (.ok df) = display := by
  rw [refreshPass, interpolate_and_plot_short df h]

theorem refreshPass_error (display : Option Frame) (msg : String) :
    refreshPass display (.error msg) = display := rfl

/-! ## Helper lemmas: the main loop transition system -/

theorem step_modified_target (cwd target : PyPath) (s : SysState) :
    step cwd target s (.modified target) = { s with file_changed := true } := by
  simp [step, on_modified, CSVFileChangeHandler.init]

theorem step_modified_other (cwd target src : PyPath) (s : SysState)
    (h : os_path_abspath cwd src ≠ os_path_abspath cwd target) :
    step cwd target s (.modified src) = s := by
  simp [step, on_modified, CSVFileChangeHandler.init, h]

theorem runEvs_append (cwd target : PyPath) (s : SysState) (l₁ l₂ : List Ev) :
    runEvs cwd target s (l₁ ++ l₂) = runEvs cwd target (runEvs cwd target s l₁) l₂ :=
  List.foldl_append _ _ l₁ l₂

theorem runEvs_replicate_modified (cwd target : PyPath) (s : SysState) (n : ℕ) :
    runEvs cwd target s (List.replicate (n + 1) (.modified target)) =
      { s with file_changed := true } := by
  induction n generalizing s with
  | zero =>
    rw [List.replicate_one, runEvs, List.foldl_cons, List.foldl_nil,
      step_modified_target]
  | succ m ih =>
    rw [List.replicate_succ, runEvs, List.foldl_cons, step_modified_target,
      ← runEvs, ih]

theorem step_check_true (cwd target : PyPath) (s : SysState)
    (hpc : s.pc = .pcCheck) (hfc : s.file_changed = true)
    (l : Except String (List Sample)) :
    step cwd target s (.mainStep l) = { s with pc := .pcClear } := by
  obtain ⟨fc, pc, d, r⟩ := s
  cases hpc
  cases hfc
  rfl

theorem step_check_false (cwd target : PyPath) (s : SysState)
    (hpc : s.pc = .pcCheck) (hfc : s.file_changed = false)
    (l : Except String (List Sample)) :
    step cwd target s (.mainStep l) = s := by
  obtain ⟨fc, pc, d, r⟩ := s
  cases hpc
  cases hfc
  rfl

theorem step_clear (cwd target : PyPath) (s : SysState)
    (hpc : s.pc = .pcClear) (l : Except String (List Sample)) :
    step cwd target s (.mainStep l) =
      { s with file_changed := false, pc := .pcRefresh } := by
  obtain ⟨fc, pc, d, r⟩ := s
  cases hpc
  rfl

theorem step_refresh (cwd target : PyPath) (s : SysState)
    (hpc : s.pc = .pcRefresh) (l : Except String (List Sample)) :
    step cwd target s (.mainStep l) =
      { s with pc := .pcCheck
               display := refreshPass s.display l
               refreshes := s.refreshes + 1 } := by
  obtain ⟨fc, pc, d, r⟩ := s
  cases hpc
  rfl

/-- A full loop tick starting at the flag check with the flag set: the flag
is read, cleared, and exactly one refresh pass runs (against the file
contents `l₃` current when the pass executes). -/
theorem full_tick (cwd target : PyPath) (s : SysState)
    (hpc : s.pc = .pcCheck) (hfc : s.file_changed = true)
    (l₁ l₂ l₃ : Except String (List Sample)) :
    runEvs cwd target s [.mainStep l₁, .mainStep l₂, .mainStep l₃] =
      { file_changed := false
        pc := .pcCheck
        display := refreshPass s.display l₃
        refreshes := s.refreshes + 1 } := by
  rw [runEvs, List.foldl_cons, step_check_true cwd target s hpc hfc l₁,
    List.foldl_cons, step_clear cwd target _ rfl l₂,
    List.foldl_cons, step_refresh cwd target _ rfl l₃, List.foldl_nil]

/-- Once the full loop has broken out (line 112), a main-loop step does
nothing and a notifier callback can at most set the flag: the loop stays
exited and the refresh count and display never change again. -/
theorem stepFull_halted (cwd target : PyPath) (s : FullState) (e : Ev)
    (h : s.running = false) :
    (stepFull cwd target s e).running = false ∧
    (stepFull cwd target s e).refreshes = s.refreshes ∧
    (stepFull cwd target s e).display = s.display := by
  cases e with
  | modified src => exact ⟨h, rfl, rfl⟩
  | mainStep load => simp [stepFull, h]

theorem runEvsFull_halted (cwd target : PyPath) (s : FullState)
    (evs : List Ev) (h : s.running = false) :
    (runEvsFull cwd target s evs).running = false ∧
    (runEvsFull cwd target s evs).refreshes = s.refreshes ∧
    (runEvsFull cwd target s evs).display = s.display := by
  induction evs generalizing s with
  | nil => exact ⟨h, rfl, rfl⟩
  | cons e es ih =>
    obtain ⟨h1, h2, h3⟩ := stepFull_halted cwd target s e h
    obtain ⟨g1, g2, g3⟩ := ih (stepFull cwd target s e) h1
    refine ⟨?_, ?_, ?_⟩
    · show (runEvsFull cwd target (stepFull cwd target s e) es).running = false
      exact g1
    · show (runEvsFull cwd target (stepFull cwd target s e) es).refreshes
        = s.refreshes
      exact g2.trans h2
    · show (runEvsFull cwd target (stepFull cwd target s e) es).display
        = s.display
      exact g3.trans h3

theorem npMax_eq_npMin_of_const (samples : List Sample) (f : Sample → ℚ)
    (hne : samples ≠ []) (hall : ∀ s ∈ samples, ∀ t ∈ samples, f s = f t) :
    npMax (samples.map f) = npMin (samples.map f) := by
  have hne' : samples.map f ≠ [] := by
    intro h
    exact hne (List.map_eq_nil_iff.mp h)
  obtain ⟨s, hs, hsv⟩ := List.mem_map.mp (npMax_mem _ hne')
  obtain ⟨t, ht, htv⟩ := List.mem_map.mp (npMin_mem _ hne')
  rw [← hsv, ← htv]
  exact hall s hs t ht

/-! ## Claim theorems -/

/-- Claim C1: the main loop clears the flag before running the refresh, so a
burst of `n ≥ 1` flag-set events before a single tick's check yields exactly
one reload+interpolate+render pass on that tick (with the flag left clear),
and a set event racing the clear — i.e. arriving while a refresh pass is in
progress, after the clear — is never lost: the flag is still set when that
pass completes, and exactly one further refresh runs on the subsequent
tick. -/
theorem C1_dirty_flag_coalescing (cwd target : PyPath) :
    (∀ (s : SysState) (n : ℕ) (l₁ l₂ l₃ : Except String (List Sample)),
      s.pc = .pcCheck → s.file_changed = false → 1 ≤ n →
      runEvs cwd target s (List.replicate n (.modified target) ++
          [.mainStep l₁, .mainStep l₂, .mainStep l₃]) =
        { file_changed := false
          pc := .pcCheck
          display := refreshPass s.display l₃
          refreshes := s.refreshes + 1 }) ∧
    (∀ (s : SysState) (l₀ l₁ l₂ l₃ : Except String (List Sample)),
      s.pc = .pcRefresh → s.file_changed = false →
      (runEvs cwd target s [.modified target, .mainStep l₀]).file_changed
          = true ∧
      (runEvs cwd target s [.modified target, .mainStep l₀]).refreshes
          = s.refreshes + 1 ∧
      runEvs cwd target s [.modified target, .mainStep l₀, .mainStep l₁,
          .mainStep l₂, .mainStep l₃] =
        { file_changed := false
          pc := .pcCheck
          display := refreshPass (refreshPass s.display l₀) l₃
          refreshes := s.refreshes + 2 }) := by
  constructor
  · intro s n l₁ l₂ l₃ hpc hfc hn
    obtain ⟨m, rfl⟩ : ∃ m, n = m + 1 := ⟨n - 1, by omega⟩
    rw [runEvs_append, runEvs_replicate_modified,
      full_tick cwd target { s with file_changed := true } hpc rfl l₁ l₂ l₃]
  · intro s l₀ l₁ l₂ l₃ hpc hfc
    have h12 : runEvs cwd target s [.modified target, .mainStep l₀] =
        { file_changed := true
          pc := .pcCheck
          display := refreshPass s.display l₀
          refreshes := s.refreshes + 1 } := by
      rw [runEvs, List.foldl_cons, step_modified_target, List.foldl_cons,
        step_refresh cwd target { s with file_changed := true } hpc l₀,
        List.foldl_nil]
    refine ⟨by rw [h12], by rw [h12], ?_⟩
    show runEvs cwd target s ([.modified target, .mainStep l₀] ++
      [.mainStep l₁, .mainStep l₂, .mainStep l₃]) = _
    rw [runEvs_append, h12, full_tick cwd target _ rfl rfl l₁ l₂ l₃]

/-- Witness for C1: a burst of 3 set events then one tick from the idle
check state runs exactly one pass; a set event racing an in-progress pass
is still pending when the pass completes and is consumed by exactly one
pass on the next tick. -/
theorem C1_dirty_flag_coalescing_witness :
    runEvs ⟨true, ["home"]⟩ ⟨false, ["f.csv"]⟩ ⟨false, .pcCheck, none, 0⟩
        (List.replicate 3 (.modified ⟨false, ["f.csv"]⟩) ++
          [.mainStep (.error "e"), .mainStep (.error "e"),
            .mainStep (.error "e")]) =
      ⟨false, .pcCheck, none, 1⟩ ∧
    (runEvs ⟨true, ["home"]⟩ ⟨false, ["f.csv"]⟩ ⟨false, .pcRefresh, none, 4⟩
        [.modified ⟨false, ["f.csv"]⟩, .mainStep (.error "e")]).file_changed
        = true ∧
    runEvs ⟨true, ["home"]⟩ ⟨false, ["f.csv"]⟩ ⟨false, .pcRefresh, none, 4⟩
        [.modified ⟨false, ["f.csv"]⟩, .mainStep (.error "e"),
          .mainStep (.error "e"), .mainStep (.error "e"),
          .mainStep (.error "e")] =
      ⟨false, .pcCheck, none, 6⟩ := by
  have h := C1_dirty_flag_coalescing ⟨true, ["home"]⟩ ⟨false, ["f.csv"]⟩
  refine ⟨?_, ?_, ?_⟩
  · exact h.1 ⟨false, .pcCheck, none, 0⟩ 3 (.error "e") (.error "e")
      (.error "e") rfl rfl (by norm_num)
  · exact (h.2 ⟨false, .pcRefresh, none, 4⟩ (.error "e") (.error "e")
      (.error "e") (.error "e") rfl rfl).1
  · exact (h.2 ⟨false, .pcRefresh, none, 4⟩ (.error "e") (.error "e")
      (.error "e") (.error "e") rfl rfl).2.2

/-- Claim C4: a modification event sets the `file_changed` flag exactly when
the event path, in absolute/canonicalised form, equals the watched target's
absolute path; the notifier callback changes nothing else; an event for any
other path leaves the flag as it was; and no main-loop step ever sets the
flag. -/
theorem C4_flag_set_iff_matching_path (cwd target : PyPath) (s : SysState)
    (src : PyPath) :
    ((step cwd target s (.modified src)).file_changed = true ↔
        s.file_changed = true ∨
          os_path_abspath cwd src = os_path_abspath cwd target) ∧
    ((step cwd target s (.modified src)).pc = s.pc ∧
      (step cwd target s (.modified src)).display = s.display ∧
      (step cwd target s (.modified src)).refreshes = s.refreshes) ∧
    (os_path_abspath cwd src ≠ os_path_abspath cwd target →
        (step cwd target s (.modified src)).file_changed = s.file_changed) ∧
    (∀ l, (step cwd target s (.mainStep l)).file_changed = true →
        s.file_changed = true) := by
  refine ⟨?_, ⟨rfl, rfl, rfl⟩, ?_, ?_⟩
  · by_cases hp : os_path_abspath cwd src = os_path_abspath cwd target
    · simp [step, on_modified, CSVFileChangeHandler.init, hp]
    · simp [step, on_modified, CSVFileChangeHandler.init, hp]
  · intro hp
    simp [step, on_modified, CSVFileChangeHandler.init, hp]
  · intro l h
    obtain ⟨fc, pc, d, r⟩ := s
    cases pc <;> cases fc <;> simp_all [step]

/-- Witness for C4: with working directory `/home/u`, a relative event path
`../u/data/f.csv` canonicalises to the watched `data/./f.csv` and sets the
flag; an event for `other.csv` in the same directory does not; a main-loop
step only ever finds the flag true if it already was. -/
theorem C4_flag_set_iff_matching_path_witness :
    (step ⟨true, ["home", "u"]⟩ ⟨false, ["data", ".", "f.csv"]⟩
        ⟨false, .pcCheck, none, 0⟩
        (.modified ⟨false, ["..", "u", "data", "f.csv"]⟩)).file_changed
      = true ∧
    ¬ ((step ⟨true, ["home", "u"]⟩ ⟨false, ["data", ".", "f.csv"]⟩
        ⟨false, .pcCheck, none, 0⟩
        (.modified ⟨false, ["other.csv"]⟩)).file_changed = true) ∧
    (⟨true, .pcCheck, none, 0⟩ : SysState).file_changed = true := by
  refine ⟨?_, ?_, ?_⟩
  · exact (C4_flag_set_iff_matching_path ⟨true, ["home", "u"]⟩
      ⟨false, ["data", ".", "f.csv"]⟩ ⟨false, .pcCheck, none, 0⟩
      ⟨false, ["..", "u", "data", "f.csv"]⟩).1.mpr (Or.inr (by decide))
  · intro hh
    rcases (C4_flag_set_iff_matching_path ⟨true, ["home", "u"]⟩
      ⟨false, ["data", ".", "f.csv"]⟩ ⟨false, .pcCheck, none, 0⟩
      ⟨false, ["other.csv"]⟩).1.mp hh with h1 | h2
    · exact absurd h1 (by decide)
    · exact absurd h2 (by decide)
  · exact (C4_flag_set_iff_matching_path ⟨true, ["home", "u"]⟩
      ⟨false, ["data", ".", "f.csv"]⟩ ⟨true, .pcCheck, none, 0⟩
      ⟨false, ["f.csv"]⟩).2.2.2 (.error "e") rfl

/-- Claim C2: for a SampleSet with at least 2 samples and non-degenerate
bounds, the grid bounds the interpolation uses — also handed to the
renderer as the axis `extent` — are exactly the minimum and maximum of the
input azimuth column and of the input elevation column: each bound is
attained by some column entry and bounds every column entry. -/
theorem C2_grid_bounds_exact (samples : List Sample) (h2 : 2 ≤ samples.length)
    (_hndaz : ∃ s₁ ∈ samples, ∃ s₂ ∈ samples, s₁.azimuth ≠ s₂.azimuth)
    (_hndel : ∃ s₁ ∈ samples, ∃ s₂ ∈ samples, s₁.elevation ≠ s₂.elevation) :
    ∃ fr, interpolate_and_plot (.ok samples) = .rendered fr ∧
      fr.az_min ∈ samples.map Sample.azimuth ∧
      fr.az_max ∈ samples.map Sample.azimuth ∧
      fr.el_min ∈ samples.map Sample.elevation ∧
      fr.el_max ∈ samples.map Sample.elevation ∧
      (∀ x ∈ samples.map Sample.azimuth, fr.az_min ≤ x ∧ x ≤ fr.az_max) ∧
      (∀ x ∈ samples.map Sample.elevation, fr.el_min ≤ x ∧ x ≤ fr.el_max) ∧
      fr.extent = [fr.az_min, fr.az_max, fr.el_min, fr.el_max] := by
  have hazne : samples.map Sample.azimuth ≠ [] :=
    List.ne_nil_of_length_pos (by rw [List.length_map]; omega)
  have helne : samples.map Sample.elevation ≠ [] :=
    List.ne_nil_of_length_pos (by rw [List.length_map]; omega)
  refine ⟨renderFrame samples, interpolate_and_plot_ok samples (by omega),
    npMin_mem _ hazne, npMax_mem _ hazne, npMin_mem _ helne,
    npMax_mem _ helne, ?_, ?_, rfl⟩
  · exact fun x hx => ⟨npMin_le _ x hx, le_npMax _ x hx⟩
  · exact fun x hx => ⟨npMin_le _ x hx, le_npMax _ x hx⟩

/-- Witness for C2, on the spec's four-corner sample set. -/
theorem C2_grid_bounds_exact_witness :
    ∃ fr, interpolate_and_plot (.ok demoSamples) = .rendered fr ∧
      fr.az_min ∈ demoSamples.map Sample.azimuth ∧
      fr.az_max ∈ demoSamples.map Sample.azimuth ∧
      fr.el_min ∈ demoSamples.map Sample.elevation ∧
      fr.el_max ∈ demoSamples.map Sample.elevation ∧
      (∀ x ∈ demoSamples.map Sample.azimuth, fr.az_min ≤ x ∧ x ≤ fr.az_max) ∧
      (∀ x ∈ demoSamples.map Sample.elevation,
        fr.el_min ≤ x ∧ x ≤ fr.el_max) ∧
      fr.extent = [fr.az_min, fr.az_max, fr.el_min, fr.el_max] :=
  C2_grid_bounds_exact demoSamples (by decide) (by decide) (by decide)

/-- Claim C3: with fewer than 2 samples the pass reports insufficient data —
a diagnostic outcome, not a fault — produces no interpolated field, and
performs no render: the display is left exactly as it was. -/
theorem C3_insufficient_data (samples : List Sample)
    (h : samples.length < 2) :
    interpolate_and_plot (.ok samples) = .insufficientData ∧
    ∀ display, refreshPass display (.ok samples) = display :=
  ⟨interpolate_and_plot_short samples h,
    fun d => refreshPass_short d samples h⟩

/-- Witness for C3: a single-row load is reported as insufficient and the
blank display stays blank. -/
theorem C3_insufficient_data_witness :
    interpolate_and_plot (.ok [⟨0, 1, 0, 0⟩]) = .insufficientData ∧
    refreshPass none (.ok [⟨0, 1, 0, 0⟩]) = none :=
  ⟨(C3_insufficient_data [⟨0, 1, 0, 0⟩] (by decide)).1,
    (C3_insufficient_data [⟨0, 1, 0, 0⟩] (by decide)).2 none⟩

/-- Claim C5: a load failure is reported as a recoverable load-error
outcome, the pass produces no SampleSet, the display is untouched and no
fault escapes the refresh boundary (the pass is a total function into
`Outcome`); and — with the externally specified parser modelled from the
spec — a file containing any row that is not four numeric columns fails as
a whole load. -/
theorem C5_load_failure_recoverable :
    (∀ (msg : String) (display : Option Frame),
        interpolate_and_plot (.error msg) = .loadError msg ∧
        refreshPass display (.error msg) = display) ∧
    (∀ rows : List RawRow,
        (∃ r ∈ rows, r.length ≠ 4 ∨ (none : Option ℚ) ∈ r) →
        ∃ msg, read_csv rows = .error msg) :=
  ⟨fun _ _ => ⟨rfl, rfl⟩, read_csv_error_of_bad_row⟩

/-- Witness for C5: a failed read leaves the blank display blank, and a
file whose second row has a non-numeric column fails as a whole load. -/
theorem C5_load_failure_recoverable_witness :
    interpolate_and_plot (.error "f") = .loadError "f" ∧
    refreshPass none (.error "f") = none ∧
    ∃ msg, read_csv [[some 0, some 1, some 2, some 3],
        [some 0, none, some 2, some 3]] = .error msg :=
  ⟨(C5_load_failure_recoverable.1 "f" none).1,
    (C5_load_failure_recoverable.1 "f" none).2,
    C5_load_failure_recoverable.2 _ (by decide)⟩

/-- Claim C6: with at least 2 samples all sharing one azimuth (or all
sharing one elevation), the interpolation pass still completes and renders —
the outcome is a frame, not an error — and the grid degenerates to a single
column (resp. row): every azimuth (resp. elevation) grid coordinate
coincides with the single bound value. -/
theorem C6_degenerate_bounds_ok (samples : List Sample)
    (h2 : 2 ≤ samples.length) :
    ((∀ s ∈ samples, ∀ t ∈ samples, s.azimuth = t.azimuth) →
      ∃ fr, interpolate_and_plot (.ok samples) = .rendered fr ∧
        (∀ x ∈ fr.az_grid, x = fr.az_min) ∧
        fr.az_grid.length = num_points) ∧
    ((∀ s ∈ samples, ∀ t ∈ samples, s.elevation = t.elevation) →
      ∃ fr, interpolate_and_plot (.ok samples) = .rendered fr ∧
        (∀ x ∈ fr.el_grid, x = fr.el_min) ∧
        fr.el_grid.length = num_points) := by
  have hne : samples ≠ [] := List.ne_nil_of_length_pos (by omega)
  constructor
  · intro hall
    refine ⟨renderFrame samples, interpolate_and_plot_ok samples (by omega),
      ?_, np_linspace_length _ _ _⟩
    show ∀ x ∈ np_linspace (npMin (samples.map Sample.azimuth))
        (npMax (samples.map Sample.azimuth)) num_points,
      x = npMin (samples.map Sample.azimuth)
    rw [npMax_eq_npMin_of_const samples Sample.azimuth hne hall]
    exact fun x hx => np_linspace_const _ _ x hx
  · intro hall
    refine ⟨renderFrame samples, interpolate_and_plot_ok samples (by omega),
      ?_, np_linspace_length _ _ _⟩
    show ∀ x ∈ np_linspace (npMin (samples.map Sample.elevation))
        (npMax (samples.map Sample.elevation)) num_points,
      x = npMin (samples.map Sample.elevation)
    rw [npMax_eq_npMin_of_const samples Sample.elevation hne hall]
    exact fun x hx => np_linspace_const _ _ x hx

/-- Witness for C6: two samples with equal azimuths render a single-column
grid; two samples with equal elevations render a single-row grid. -/
theorem C6_degenerate_bounds_ok_witness :
    (∃ fr, interpolate_and_plot (.ok [⟨0, 1, 5, 0⟩, ⟨1, 2, 5, 10⟩])
        = .rendered fr ∧
      (∀ x ∈ fr.az_grid, x = fr.az_min) ∧ fr.az_grid.length = num_points) ∧
    (∃ fr, interpolate_and_plot (.ok [⟨0, 1, 0, 7⟩, ⟨1, 2, 10, 7⟩])
        = .rendered fr ∧
      (∀ x ∈ fr.el_grid, x = fr.el_min) ∧ fr.el_grid.length = num_points) :=
  ⟨(C6_degenerate_bounds_ok [⟨0, 1, 5, 0⟩, ⟨1, 2, 5, 10⟩] (by decide)).1
      (by decide),
    (C6_degenerate_bounds_ok [⟨0, 1, 0, 7⟩, ⟨1, 2, 10, 7⟩] (by decide)).2
      (by decide)⟩

/-- Claim C8: a refresh pass that fails (load error or insufficient data)
returns before any mutation of the display: after the pass the display is
exactly what it was — including the blank display before a first successful
refresh — and the loop returns to the idle check. -/
theorem C8_failed_refresh_atomic (cwd target : PyPath) (s : SysState)
    (load : Except String (List Sample)) (hpc : s.pc = .pcRefresh)
    (hfail : interpolate_and_plot load = .insufficientData ∨
      ∃ msg, interpolate_and_plot load = .loadError msg) :
    (step cwd target s (.mainStep load)).display = s.display ∧
    (step cwd target s (.mainStep load)).pc = .pcCheck ∧
    ∀ d : Option Frame, refreshPass d load = d := by
  have hrp : ∀ d : Option Frame, refreshPass d load = d := by
    intro d
    unfold refreshPass
    rcases hfail with h | ⟨msg, h⟩ <;> rw [h]
  rw [step_refresh cwd target s hpc load]
  exact ⟨hrp s.display, rfl, hrp⟩

/-- Witness for C8: an in-progress pass over a one-row file leaves the
blank display blank and returns the loop to the check state. -/
theorem C8_failed_refresh_atomic_witness :
    (step ⟨true, ["home"]⟩ ⟨false, ["f.csv"]⟩ ⟨false, .pcRefresh, none, 0⟩
        (.mainStep (.ok [⟨0, 1, 0, 0⟩]))).display = none ∧
    (step ⟨true, ["home"]⟩ ⟨false, ["f.csv"]⟩ ⟨false, .pcRefresh, none, 0⟩
        (.mainStep (.ok [⟨0, 1, 0, 0⟩]))).pc = .pcCheck ∧
    refreshPass none (.ok [⟨0, 1, 0, 0⟩]) = none := by
  have h := C8_failed_refresh_atomic ⟨true, ["home"]⟩ ⟨false, ["f.csv"]⟩
    ⟨false, .pcRefresh, none, 0⟩ (.ok [⟨0, 1, 0, 0⟩]) rfl (Or.inl rfl)
  exact ⟨h.1, h.2.1, h.2.2 none⟩

/-- Claim C9 (refuted by the code): the spec requires that a failed
initial refresh is reported but does not terminate — the watch loop still
starts, keeps running and keeps watching.  In the code, a failed initial
pass returns before `plt.clf()` (line 54), so figure 1 is never created,
and the first loop iteration's line-112 check
`if not plt.fignum_exists(1): break` exits the loop immediately: after a
failed startup the very first main-loop step halts the loop, and no later
modification event or loop step ever runs a refresh or renders anything —
the program stops watching. -/
theorem C9_initial_failure_exits_loop (cwd target : PyPath) (msg : String)
    (l₀ : Except String (List Sample)) (evs : List Ev) :
    (mainStartupFull (.error msg)).display = none ∧
    (mainStartupFull (.error msg)).running = true ∧
    (stepFull cwd target (mainStartupFull (.error msg))
        (.mainStep l₀)).running = false ∧
    (runEvsFull cwd target
        (stepFull cwd target (mainStartupFull (.error msg)) (.mainStep l₀))
        evs).running = false ∧
    (runEvsFull cwd target
        (stepFull cwd target (mainStartupFull (.error msg)) (.mainStep l₀))
        evs).refreshes = 0 ∧
    (runEvsFull cwd target
        (stepFull cwd target (mainStartupFull (.error msg)) (.mainStep l₀))
        evs).display = none := by
  have h1 : stepFull cwd target (mainStartupFull (.error msg))
      (.mainStep l₀) =
      { file_changed := false
        pc := .fLive
        running := false
        display := none
        refreshes := 0 } := rfl
  obtain ⟨g1, g2, g3⟩ := runEvsFull_halted cwd target
    (stepFull cwd target (mainStartupFull (.error msg)) (.mainStep l₀))
    evs (by rw [h1])
  exact ⟨rfl, rfl, by rw [h1], g1, by rw [g2, h1], by rw [g3, h1]⟩

/-- Claim C10: with at least 2 samples the interpolation grid has exactly
the configured resolution of 100 points per axis — 100×100 nodes — and each
axis spans the computed bounds inclusively: first node at the minimum, last
node at the maximum. -/
theorem C10_grid_resolution (samples : List Sample)
    (h2 : 2 ≤ samples.length) :
    ∃ fr, interpolate_and_plot (.ok samples) = .rendered fr ∧
      num_points = 100 ∧
      fr.az_grid.length = num_points ∧
      fr.el_grid.length = num_points ∧
      fr.power_grid.length = num_points ∧
      (∀ row ∈ fr.power_grid, row.length = num_points) ∧
      fr.az_grid[0]? = some fr.az_min ∧
      fr.az_grid[num_points - 1]? = some fr.az_max ∧
      fr.el_grid[0]? = some fr.el_min ∧
      fr.el_grid[num_points - 1]? = some fr.el_max := by
  refine ⟨renderFrame samples, interpolate_and_plot_ok samples (by omega),
    rfl, np_linspace_length _ _ _, np_linspace_length _ _ _, ?_, ?_,
    np_linspace_first _ _ _ (by decide),
    np_linspace_last _ _ _ (by decide),
    np_linspace_first _ _ _ (by decide),
    np_linspace_last _ _ _ (by decide)⟩
  · show (List.map _ (np_linspace _ _ num_points)).length = num_points
    rw [List.length_map, np_linspace_length]
  · intro row hrow
    obtain ⟨el, _, hrow'⟩ := List.mem_map.mp hrow
    rw [← hrow', List.length_map, np_linspace_length]

/-- Witness for C10, on the spec's four-corner sample set. -/
theorem C10_grid_resolution_witness :
    ∃ fr, interpolate_and_plot (.ok demoSamples) = .rendered fr ∧
      num_points = 100 ∧
      fr.az_grid.length = num_points ∧
      fr.el_grid.length = num_points ∧
      fr.power_grid.length = num_points ∧
      (∀ row ∈ fr.power_grid, row.length = num_points) ∧
      fr.az_grid[0]? = some fr.az_min ∧
      fr.az_grid[num_points - 1]? = some fr.az_max ∧
      fr.el_grid[0]? = some fr.el_min ∧
      fr.el_grid[num_points - 1]? = some fr.el_max :=
  C10_grid_resolution demoSamples (by decide)

theorem convex_sum_le_one : Convex ℚ {p : ℚ × ℚ | p.1 + p.2 ≤ 1} := by
  intro x hx y hy a b ha hb hab
  simp only [Set.mem_setOf_eq] at hx hy ⊢
  have hxy : (a • x + b • y).1 + (a • x + b • y).2
      = a * (x.1 + x.2) + b * (y.1 + y.2) := by
    simp only [Prod.fst_add, Prod.snd_add, Prod.smul_fst, Prod.smul_snd,
      smul_eq_mul]
    ring
  rw [hxy]
  nlinarith

/-- Claim C7: every value the interpolation produces at a grid node is a
plain barycentric combination — nonnegative weights summing to 1 — of three
sample points containing the node, with the value the same combination of
their powers (no clamping, smoothing or extrapolation); consequently a node
strictly outside the convex hull of the sample points carries the no-value
marker, never an extrapolated number. -/
theorem C7_no_extrapolation_outside_hull (pts : List (ℚ × ℚ))
    (vals : List ℚ) (node : ℚ × ℚ) :
    (∀ v, griddata pts vals node = some v →
      ∃ pv₁ ∈ pts.zip vals, ∃ pv₂ ∈ pts.zip vals, ∃ pv₃ ∈ pts.zip vals,
        ∃ w₁ w₂ w₃ : ℚ, 0 ≤ w₁ ∧ 0 ≤ w₂ ∧ 0 ≤ w₃ ∧ w₁ + w₂ + w₃ = 1 ∧
          node = w₁ • pv₁.1 + w₂ • pv₂.1 + w₃ • pv₃.1 ∧
          v = w₁ * pv₁.2 + w₂ * pv₂.2 + w₃ * pv₃.2) ∧
    (node ∉ convexHull ℚ {p : ℚ × ℚ | p ∈ pts} →
      griddata pts vals node = none) := by
  have hpart1 : ∀ v, griddata pts vals node = some v →
      ∃ pv₁ ∈ pts.zip vals, ∃ pv₂ ∈ pts.zip vals, ∃ pv₃ ∈ pts.zip vals,
        ∃ w₁ w₂ w₃ : ℚ, 0 ≤ w₁ ∧ 0 ≤ w₂ ∧ 0 ≤ w₃ ∧ w₁ + w₂ + w₃ = 1 ∧
          node = w₁ • pv₁.1 + w₂ • pv₂.1 + w₃ • pv₃.1 ∧
          v = w₁ * pv₁.2 + w₂ * pv₂.2 + w₃ * pv₃.2 := by
    intro v h
    unfold griddata at h
    obtain ⟨pv₁, h₁, h⟩ := exists_of_findSome_eq_some _ _ _ h
    obtain ⟨pv₂, h₂, h⟩ := exists_of_findSome_eq_some _ _ _ h
    obtain ⟨pv₃, h₃, h⟩ := exists_of_findSome_eq_some _ _ _ h
    obtain ⟨w, hw, hv⟩ := Option.map_eq_some'.mp h
    obtain ⟨h0a, h0b, h0c, hsum, hcombo⟩ :=
      baryWeights_spec pv₁.1 pv₂.1 pv₃.1 node w hw
    exact ⟨pv₁, h₁, pv₂, h₂, pv₃, h₃, w.1, w.2.1, w.2.2,
      h0a, h0b, h0c, hsum, hcombo, hv.symm⟩
  refine ⟨hpart1, ?_⟩
  intro hnot
  by_contra hne
  obtain ⟨v, hv⟩ := Option.ne_none_iff_exists'.mp hne
  obtain ⟨pv₁, h₁, pv₂, h₂, pv₃, h₃, w₁, w₂, w₃,
    h0a, h0b, h0c, hsum, hcombo, -⟩ := hpart1 v hv
  apply hnot
  rw [hcombo]
  exact combo3_mem_convexHull
    (Set.mem_setOf_eq ▸ (List.of_mem_zip h₁).1)
    (Set.mem_setOf_eq ▸ (List.of_mem_zip h₂).1)
    (Set.mem_setOf_eq ▸ (List.of_mem_zip h₃).1)
    h0a h0b h0c hsum

/-- Witness for C7: the node (5,5) lies strictly outside the hull of the
triangle (0,0),(1,0),(0,1) — it violates the supporting halfplane
x + y ≤ 1 — and the interpolated field there is the no-value marker. -/
theorem C7_no_extrapolation_outside_hull_witness :
    griddata [((0 : ℚ), (0 : ℚ)), (1, 0), (0, 1)] [1, 2, 3]
      ((5 : ℚ), (5 : ℚ)) = none := by
  apply (C7_no_extrapolation_outside_hull
    [((0 : ℚ), (0 : ℚ)), (1, 0), (0, 1)] [1, 2, 3] ((5 : ℚ), (5 : ℚ))).2
  intro hmem
  have hsub : {p : ℚ × ℚ | p ∈ [((0 : ℚ), (0 : ℚ)), (1, 0), (0, 1)]} ⊆
      {p : ℚ × ℚ | p.1 + p.2 ≤ 1} := by
    intro p hp
    simp only [Set.mem_setOf_eq, List.mem_cons, List.not_mem_nil,
      or_false] at hp
    rcases hp with rfl | rfl | rfl <;> norm_num
  have h5 := convexHull_min hsub convex_sum_le_one hmem
  simp only [Set.mem_setOf_eq] at h5
  norm_num at h5

end Tailgaters
